import Mathlib

/-!
# Verification of the forked-EVM execution driver

Shallow embedding of the EVM driver of `ethers-forked-evm-provider`
(`src/akula/evm.rs`, `src/akula/mod.rs`, `src/akula/precompiled.rs`,
`src/akula/utils.rs`) together with theorems settling the spec claims.

Machine integers are modelled as `Nat` (`U256`/`H256` values are plain
naturals, byte strings are `List Nat` of byte values); gas is `Int`
(the source uses `i64`).  The `IntraBlockState` overlay, the fee
constants and the address-derivation helpers are not part of the
sources available here; they are modelled from the specification and
marked as such in their doc comments.
-/

namespace ForkedEvm

/-- Hard-fork revisions, in declaration order of `evmodin::Revision`. -/
inductive Revision where
  | Frontier | Homestead | Tangerine | Spurious | Byzantium
  | Constantinople | Petersburg | Istanbul | Berlin | London | Shanghai
  deriving DecidableEq, Repr

/-- Numeric rank of a revision (its declaration index, which is what the
Rust `PartialOrd` derive compares). -/
def Revision.toNat : Revision → Nat
  | .Frontier => 0 | .Homestead => 1 | .Tangerine => 2 | .Spurious => 3
  | .Byzantium => 4 | .Constantinople => 5 | .Petersburg => 6
  | .Istanbul => 7 | .Berlin => 8 | .London => 9 | .Shanghai => 10

/-- `a >= b` on revisions, as the source writes `self.revision >= Revision::X`. -/
def rge (a b : Revision) : Bool := Nat.ble b.toNat a.toNat

/-- `evmodin::StatusCode` (the constructors used at the driver boundary,
plus a generic interpreter error). -/
inductive StatusCode where
  | Success | Revert | OutOfGas | InvalidInstruction | UndefinedInstruction
  | StackOverflow | StackUnderflow | BadJumpDestination | InvalidMemoryAccess
  | CallDepthExceeded | StaticModeViolation | PrecompileFailure
  | ContractValidationFailure | InsufficientBalance | InternalError
  deriving DecidableEq, Repr

/-- `evmodin::CallKind`. -/
inductive CallKind where
  | Call | DelegateCall | CallCode | Create | Create2
  deriving DecidableEq, Repr

/-- Keccak-256 hash of the empty string (`EMPTY_HASH` in `src/akula/mod.rs`). -/
def EMPTY_HASH : Nat :=
  0xc5d2460186f7233c927e7db2dcc703c0e500b653ca82273b7bfad8045d85a470

/-- The secp256k1 group order `n` (constant `UPPER` in `is_valid_signature`,
`src/akula/mod.rs`). -/
def SECP256K1N : Nat :=
  0xfffffffffffffffffffffffffffffffebaaedce6af48a03bbfd25e8cd0364141

/-- Constant `HALF_N` in `is_valid_signature` (`src/akula/mod.rs`). -/
def SECP256K1_HALF_N : Nat :=
  0x7fffffffffffffffffffffffffffffff5d576e7357a4501ddfe92f46681b20a0

/-- `is_valid_signature` from `src/akula/mod.rs` (H256 comparison is
byte-lexicographic, i.e. big-endian numeric comparison). -/
def is_valid_signature (r s : Nat) (homestead : Bool) : Bool :=
  if r = 0 ∨ s = 0 then false
  else if SECP256K1N ≤ r ∧ SECP256K1N ≤ s then false
  else if homestead ∧ SECP256K1_HALF_N < s then false
  else true

/-! ## Precompile table size (`src/akula/precompiled.rs`, `src/akula/evm.rs`) -/

def NUM_OF_FRONTIER_CONTRACTS : Nat := 4
def NUM_OF_BYZANTIUM_CONTRACTS : Nat := 8
def NUM_OF_ISTANBUL_CONTRACTS : Nat := 9

/-- `Evm::number_of_precompiles` from `src/akula/evm.rs`. -/
def number_of_precompiles (rev : Revision) : Nat :=
  match rev with
  | .Frontier | .Homestead | .Tangerine | .Spurious => NUM_OF_FRONTIER_CONTRACTS
  | .Byzantium | .Constantinople | .Petersburg => NUM_OF_BYZANTIUM_CONTRACTS
  | .Istanbul | .Berlin | .London | .Shanghai => NUM_OF_ISTANBUL_CONTRACTS

/-- `Evm::is_precompiled` from `src/akula/evm.rs`: addresses are 160-bit
values compared numerically (`H160` compares bytes lexicographically);
`max_precompiled` is the address whose low byte is the precompile count. -/
def is_precompiled (rev : Revision) (contract : Nat) : Bool :=
  if contract = 0 then false
  else decide (contract ≤ number_of_precompiles rev)

/-- The spec's precompile-count table (§4.2 of the specification), stated
independently of the source for comparison. -/
def spec_precompile_count (rev : Revision) : Nat :=
  match rev with
  | .Frontier | .Homestead | .Tangerine | .Spurious => 4
  | .Byzantium | .Constantinople | .Petersburg => 8
  | .Istanbul | .Berlin | .London | .Shanghai => 9

/-! ## Byte-string utilities (`src/akula/utils.rs`) -/

/-- Big-endian interpretation of a byte string as a natural number
(`U256::from_big_endian`). -/
def beBytesToNat (l : List Nat) : Nat := l.foldl (fun acc b => acc * 256 + b) 0

/-- `right_pad` from `src/akula/utils.rs`: pad with zeros on the right up
to `min_size` (no-op when already long enough). -/
def right_pad (buffer : List Nat) (min_size : Nat) : List Nat :=
  if buffer.length ≥ min_size then buffer
  else buffer ++ List.replicate (min_size - buffer.length) 0

/-- `left_pad` from `src/akula/utils.rs`. -/
def left_pad (buffer : List Nat) (min_size : Nat) : List Nat :=
  if buffer.length ≥ min_size then buffer
  else List.replicate (min_size - buffer.length) 0 ++ buffer

/-- Auxiliary for `natToBeBytes`: peel base-256 digits from the right. -/
def natToBeBytesAux (n : Nat) (acc : List Nat) : List Nat :=
  if h : n = 0 then acc
  else natToBeBytesAux (n / 256) (n % 256 :: acc)
termination_by n
decreasing_by exact Nat.div_lt_self (Nat.pos_of_ne_zero h) (by decide)

/-- Minimal big-endian byte representation of a natural number
(`BigUint::to_bytes_be`; the zero value encodes as the single byte 0). -/
def natToBeBytes (n : Nat) : List Nat :=
  if n = 0 then [0] else natToBeBytesAux n []

/-! ## Modexp precompile (`expmod_gas` / `expmod_run`, `src/akula/precompiled.rs`) -/

/-- `mult_complexity_eip198` from `src/akula/precompiled.rs`.  Its argument
is at most `2^64` when called from `expmod_gas`, so the `U256` arithmetic
never overflows and plain `Nat` arithmetic is exact; the subtractions are
nonnegative on their branches. -/
def mult_complexity_eip198 (x : Nat) : Nat :=
  let x_squared := x * x
  if x ≤ 64 then x_squared
  else if x ≤ 1024 then x_squared / 4 + 96 * x - 3072
  else x_squared / 16 + 480 * x - 199680

/-- `mult_complexity_eip2565` from `src/akula/precompiled.rs`. -/
def mult_complexity_eip2565 (max_length : Nat) : Nat :=
  let words := (max_length + 7) / 8
  words * words

def G_QUAD_DIVISOR_BYZANTIUM : Nat := 20
def G_QUAD_DIVISOR_BERLIN : Nat := 3

/-- The `min_gas` value at the top of `expmod_gas`. -/
def expmodMinGas (rev : Revision) : Nat := if rge rev .Berlin then 200 else 0

/-- The three 32-byte header fields read by `expmod_gas` (base length,
exponent length, modulus length), parsed from the right-padded input. -/
def expmodHeader (input : List Nat) : Nat × Nat × Nat :=
  let p := right_pad input 96
  (beBytesToNat (p.take 32),
   beBytesToNat ((p.drop 32).take 32),
   beBytesToNat ((p.drop 64).take 32))

/-- `256 - leading_zeros` of a `U256` value: the bit length of the number. -/
def bitLen (n : Nat) : Nat := if n = 0 then 0 else Nat.log2 n + 1

/-- `expmod_gas` from `src/akula/precompiled.rs`.  `none` models the `?`
early exits (`usize::try_from` / `u64::try_from` overflow), which the
caller maps to out-of-gas. -/
def expmod_gas (input0 : List Nat) (rev : Revision) : Option Nat :=
  let min_gas := expmodMinGas rev
  let input := right_pad input0 96
  let base_len256 := (expmodHeader input0).1
  let exp_len256 := (expmodHeader input0).2.1
  let mod_len256 := (expmodHeader input0).2.2
  if base_len256 = 0 ∧ mod_len256 = 0 then some min_gas
  else if base_len256 ≥ 2 ^ 64 then none
  else if exp_len256 ≥ 2 ^ 64 then none
  else if mod_len256 ≥ 2 ^ 64 then none
  else
    let base_len := base_len256
    let exp_len := exp_len256
    let payload := input.drop 96
    let exp_head :=
      if payload.length > base_len then
        let exp_input :=
          right_pad (((payload.drop base_len).take
            (min (base_len + 32) payload.length - base_len))) 32
        let exp_input :=
          if exp_len < 32 then left_pad (exp_input.take exp_len) 32 else exp_input
        beBytesToNat exp_input
      else 0
    let bit_len := bitLen exp_head
    let adjusted_exponent_len0 := if exp_len > 32 then 8 * (exp_len - 32) else 0
    let adjusted_exponent_len1 :=
      if bit_len > 1 then adjusted_exponent_len0 + (bit_len - 1)
      else adjusted_exponent_len0
    let adjusted_exponent_len :=
      if adjusted_exponent_len1 = 0 then 1 else adjusted_exponent_len1
    let max_length := max mod_len256 base_len256
    let gas :=
      if rge rev .Berlin then
        mult_complexity_eip2565 max_length * adjusted_exponent_len / G_QUAD_DIVISOR_BERLIN
      else
        mult_complexity_eip198 max_length * adjusted_exponent_len / G_QUAD_DIVISOR_BYZANTIUM
    if gas ≥ 2 ^ 64 then none else some (max min_gas gas)

/-- The three 8-byte header fields read by `expmod_run` (`u64::from_be_bytes`
at offsets 24, 56 and 88 of the right-padded input). -/
def expmodRunHeader (input : List Nat) : Nat × Nat × Nat :=
  let p := right_pad input 96
  (beBytesToNat ((p.drop 24).take 8),
   beBytesToNat ((p.drop 56).take 8),
   beBytesToNat ((p.drop 88).take 8))

/-- The modulus value parsed by `expmod_run` (meaningful when the modulus
length field is nonzero). -/
def expmodModulus (input : List Nat) : Nat :=
  let base_len := (expmodRunHeader input).1
  let exponent_len := (expmodRunHeader input).2.1
  let modulus_len := (expmodRunHeader input).2.2
  let payload := right_pad ((right_pad input 96).drop 96)
      (base_len + exponent_len + modulus_len)
  beBytesToNat ((payload.drop (base_len + exponent_len)).take modulus_len)

/-- `expmod_run` from `src/akula/precompiled.rs`.  `BigUint::modpow` is
`base ^ exponent % modulus`; the result is written big-endian into the
tail of a zero buffer of `modulus_len` bytes. -/
def expmod_run (input : List Nat) : Option (List Nat) :=
  let base_len := (expmodRunHeader input).1
  let exponent_len := (expmodRunHeader input).2.1
  let modulus_len := (expmodRunHeader input).2.2
  if modulus_len = 0 then some []
  else
    let payload := right_pad ((right_pad input 96).drop 96)
        (base_len + exponent_len + modulus_len)
    let base := beBytesToNat (payload.take base_len)
    let exponent := beBytesToNat ((payload.drop base_len).take exponent_len)
    let modulus := beBytesToNat ((payload.drop (base_len + exponent_len)).take modulus_len)
    if modulus = 0 then some (List.replicate modulus_len 0)
    else
      let b := natToBeBytes (base ^ exponent % modulus)
      some (List.replicate (modulus_len - b.length) 0 ++ b)

/-! ## IntraBlockState overlay -/

/-- Modelled from the spec: `src/akula/intra_block_state.rs` is not among
the available sources.  An account per spec §3: nonce, 256-bit balance,
code hash (`EMPTY_HASH` when no code) and incarnation counter. -/
structure Account where
  nonce : Nat
  balance : Nat
  codeHash : Nat
  incarnation : Nat
  deriving DecidableEq, Repr

/-- The default (fresh) account. -/
def Account.default : Account := ⟨0, 0, EMPTY_HASH, 0⟩

/-- EIP-2929 access status (`evmodin::AccessStatus`). -/
inductive AccessStatus where
  | Cold | Warm
  deriving DecidableEq, Repr

/-- Modelled from the spec: the `IntraBlockState` overlay (spec §4.3).
Snapshots are journal lengths and a revert restores exactly the state at
capture (spec §3 invariant 4), so snapshot/revert is modelled by capturing
and reinstating the whole overlay state.  Backend read-caching journal
entries are omitted: they are observationally neutral through the
capability set. -/
structure IBS where
  accounts : Nat → Option Account
  codeMap : Nat → List Nat
  storageCur : Nat → Nat → Nat
  storageOrig : Nat → Nat → Nat
  refund : Nat
  touched : Nat → Bool
  accessed : Nat → Bool

/-- Update (or create) the account at `a` with `f`. -/
def IBS.updAcc (st : IBS) (a : Nat) (f : Account → Account) : IBS :=
  { st with accounts := fun x =>
      if x = a then some (f ((st.accounts a).getD Account.default)) else st.accounts x }

def get_balance (st : IBS) (a : Nat) : Nat :=
  match st.accounts a with
  | none => 0
  | some acc => acc.balance

def get_nonce (st : IBS) (a : Nat) : Nat :=
  match st.accounts a with
  | none => 0
  | some acc => acc.nonce

def get_code_hash (st : IBS) (a : Nat) : Nat :=
  match st.accounts a with
  | none => EMPTY_HASH
  | some acc => acc.codeHash

/-- `IntraBlockState::exists`. -/
def account_exists (st : IBS) (a : Nat) : Bool := (st.accounts a).isSome

def set_nonce (st : IBS) (a n : Nat) : IBS :=
  st.updAcc a (fun acc => { acc with nonce := n })

def add_to_balance (st : IBS) (a v : Nat) : IBS :=
  st.updAcc a (fun acc => { acc with balance := acc.balance + v })

def subtract_from_balance (st : IBS) (a v : Nat) : IBS :=
  st.updAcc a (fun acc => { acc with balance := acc.balance - v })

def set_balance (st : IBS) (a v : Nat) : IBS :=
  st.updAcc a (fun acc => { acc with balance := v })

def touch (st : IBS) (a : Nat) : IBS :=
  { st with touched := fun x => if x = a then true else st.touched x }

def get_code (st : IBS) (a : Nat) : List Nat := st.codeMap a

/-- Keccak-256 digest of a byte string as a 256-bit number, for a given
hash function (the hash itself is an external dependency of the model). -/
def keccakDigest (keccakF : List Nat → List Nat) (data : List Nat) : Nat :=
  beBytesToNat (keccakF data)

def set_code (keccakF : List Nat → List Nat) (st : IBS) (a : Nat) (code : List Nat) : IBS :=
  let st := st.updAcc a (fun acc => { acc with codeHash := keccakDigest keccakF code })
  { st with codeMap := fun x => if x = a then code else st.codeMap x }

def get_current_storage (st : IBS) (a k : Nat) : Nat := st.storageCur a k

def get_original_storage (st : IBS) (a k : Nat) : Nat := st.storageOrig a k

def set_storage (st : IBS) (a k v : Nat) : IBS :=
  { st with storageCur := fun x y =>
      if x = a ∧ y = k then v else st.storageCur x y }

def add_refund (st : IBS) (x : Nat) : IBS := { st with refund := st.refund + x }

/-- Saturated subtraction per spec §3 invariant 3. -/
def subtract_refund (st : IBS) (x : Nat) : IBS := { st with refund := st.refund - x }

/-- `IntraBlockState::access_account`: promote to warm, return prior status. -/
def access_account (st : IBS) (a : Nat) : IBS × AccessStatus :=
  ({ st with accessed := fun x => if x = a then true else st.accessed x },
   if st.accessed a then .Warm else .Cold)

/-- Modelled from the spec (§4.3): `create_contract` bumps the
incarnation, clears code and resets the slot-space for the address. -/
def create_contract (st : IBS) (a : Nat) : IBS :=
  let acc := (st.accounts a).getD Account.default
  { st with
    accounts := fun x =>
      if x = a then
        some ⟨0, acc.balance, EMPTY_HASH, acc.incarnation + 1⟩
      else st.accounts x
    codeMap := fun x => if x = a then [] else st.codeMap x
    storageCur := fun x => if x = a then (fun _ => 0) else st.storageCur x
    storageOrig := fun x => if x = a then (fun _ => 0) else st.storageOrig x }

/-! ## Fee constants

Modelled from the spec: `src/akula/fee_params.rs` is not among the
available sources; the values are the canonical ones of the EIPs the spec
cites (EIP-2200/2929/3529, EIP-170, 200 gas per deployed byte). -/

def R_SCLEAR : Nat := 15000
def G_SSET : Nat := 20000
def G_SRESET : Nat := 5000
def COLD_SLOAD_COST : Nat := 2100
def WARM_STORAGE_READ_COST : Nat := 100
def G_SLOAD_ISTANBUL : Nat := 800
def G_SLOAD_TANGERINE_WHISTLE : Nat := 200
def ACCESS_LIST_STORAGE_KEY_COST : Nat := 1900
def G_CODE_DEPOSIT : Nat := 200
def MAX_CODE_SIZE : Nat := 24576

/-- `evmodin::StorageStatus`. -/
inductive StorageStatus where
  | Unchanged | Added | Modified | Deleted | ModifiedAgain
  deriving DecidableEq, Repr

/-- The `sload_cost` local of the `SetStorage` interrupt handler
(`src/akula/evm.rs`). -/
def sloadCost (rev : Revision) : Nat :=
  if rge rev .Berlin then WARM_STORAGE_READ_COST
  else if rge rev .Istanbul then G_SLOAD_ISTANBUL
  else G_SLOAD_TANGERINE_WHISTLE

/-- The `sstore_reset_gas` local of the `SetStorage` interrupt handler. -/
def sstoreResetGas (rev : Revision) : Nat :=
  if rge rev .Berlin then G_SRESET - COLD_SLOAD_COST else G_SRESET

/-- The `sstore_clears_refund` local of the `SetStorage` interrupt handler
(EIP-3529 from London, `R_SCLEAR` before). -/
def sstoreClearsRefund (rev : Revision) : Nat :=
  if rge rev .London then sstoreResetGas rev + ACCESS_LIST_STORAGE_KEY_COST
  else R_SCLEAR

/-- The `SetStorage` interrupt handler of `Evm::execute`
(`src/akula/evm.rs` lines 334-421): the EIP-1283/2200/3529 storage
transition, returning the updated overlay and the `StorageStatus`. -/
def set_storage_interrupt (rev : Revision) (st : IBS) (address key new_val : Nat) :
    IBS × StorageStatus :=
  let current_val := get_current_storage st address key
  if current_val = new_val then (st, .Unchanged)
  else
    let st := set_storage st address key new_val
    let eip1283 := rge rev .Istanbul ∨ rev = .Constantinople
    if ¬eip1283 then
      if current_val = 0 then (st, .Added)
      else if new_val = 0 then (add_refund st R_SCLEAR, .Deleted)
      else (st, .Modified)
    else
      let original_val := get_original_storage st address key
      if original_val = current_val then
        if original_val = 0 then (st, .Added)
        else
          let st := if new_val = 0 then add_refund st (sstoreClearsRefund rev) else st
          (st, .Modified)
      else
        let st :=
          if original_val ≠ 0 then
            let st := if current_val = 0 then subtract_refund st (sstoreClearsRefund rev) else st
            if new_val = 0 then add_refund st (sstoreClearsRefund rev) else st
          else st
        let st :=
          if original_val = new_val then
            add_refund st
              (if original_val = 0 then G_SSET - sloadCost rev
               else sstoreResetGas rev - sloadCost rev)
          else st
        (st, .ModifiedAgain)

/-! ## Messages and outputs (`evmodin` types used by `src/akula/evm.rs`) -/

/-- `evmodin::Message`. -/
structure Message where
  kind : CallKind
  is_static : Bool
  depth : Nat
  gas : Int
  recipient : Nat
  code_address : Nat
  sender : Nat
  input_data : List Nat
  value : Nat
  deriving DecidableEq, Repr

/-- `evmodin::CreateMessage`. -/
structure CreateMessage where
  depth : Nat
  gas : Int
  sender : Nat
  initcode : List Nat
  endowment : Nat
  salt : Option Nat
  deriving DecidableEq, Repr

/-- `evmodin::Output` (also the shape of the driver's `CallResult`). -/
structure Output where
  status_code : StatusCode
  gas_left : Int
  output_data : List Nat
  create_address : Option Nat
  deriving DecidableEq, Repr

/-- A precompile table entry (`Contract` in `src/akula/precompiled.rs`). -/
structure Contract where
  gas : List Nat → Revision → Option Nat
  run : List Nat → Option (List Nat)

/-- The bytecode interpreter, an external collaborator: given the message,
the analyzed code and the overlay it returns the overlay after servicing
all interrupts and the terminal `Output` (`Evm::execute`'s interrupt loop
with the interpreter treated as opaque). -/
abbrev Exec := Message → List Nat → IBS → IBS × Output

/-! ## Contract-address derivation

Modelled from the spec: `src/akula/address.rs` is not among the available
sources.  Spec §4.4 step 3: `CREATE` uses `keccak(rlp(sender, nonce))[12..]`,
`CREATE2` uses `keccak(0xff || sender || salt || keccak(initcode))[12..]`. -/

/-- Fixed-width big-endian byte representation of a natural number. -/
def beBytesFixed (n w : Nat) : List Nat :=
  (List.range w).map (fun i => n / 256 ^ (w - 1 - i) % 256)

/-- RLP scalar payload: minimal big-endian bytes, empty for zero. -/
def rlpScalarBytes (n : Nat) : List Nat :=
  if n = 0 then [] else natToBeBytesAux n []

/-- RLP encoding of a byte string. -/
def rlpEncodeBytes (b : List Nat) : List Nat :=
  match b with
  | [x] => if x < 0x80 then [x] else [0x81, x]
  | _ =>
    if b.length < 56 then (0x80 + b.length) :: b
    else
      let lb := natToBeBytes b.length
      (0xb7 + lb.length) :: (lb ++ b)

/-- RLP list header around an already-encoded payload. -/
def rlpEncodeList (payload : List Nat) : List Nat :=
  if payload.length < 56 then (0xc0 + payload.length) :: payload
  else
    let lb := natToBeBytes payload.length
    (0xf7 + lb.length) :: (lb ++ payload)

/-- Modelled from the spec: `create_address(sender, nonce)` =
`keccak(rlp(sender, nonce))[12..]` (spec §4.4 step 3). -/
def create_address (keccakF : List Nat → List Nat) (sender nonce : Nat) : Nat :=
  beBytesToNat ((keccakF (rlpEncodeList
    (rlpEncodeBytes (beBytesFixed sender 20) ++ rlpEncodeBytes (rlpScalarBytes nonce)))).drop 12)

/-- Modelled from the spec: `create2_address(sender, salt, code_hash)` =
`keccak(0xff || sender || salt || code_hash)[12..]` (spec §4.4 step 3). -/
def create2_address (keccakF : List Nat → List Nat) (sender salt code_hash : Nat) : Nat :=
  beBytesToNat ((keccakF
    (0xff :: (beBytesFixed sender 20 ++ beBytesFixed salt 32 ++ beBytesFixed code_hash 32))).drop 12)

/-- The `contract_addr` computation of `Evm::create` (`src/akula/evm.rs`
lines 127-137): salted messages use `create2_address` of the sender, the
salt and the keccak hash of the init code; salt-less messages use
`create_address` of the sender and the supplied nonce. -/
def contractAddress (keccakF : List Nat → List Nat) (sender nonce : Nat)
    (salt : Option Nat) (initcode : List Nat) : Nat :=
  match salt with
  | some s => create2_address keccakF sender s (keccakDigest keccakF initcode)
  | none => create_address keccakF sender nonce

/-! ## The EVM driver (`Evm::call` / `Evm::create`, `src/akula/evm.rs`) -/

/-- The final status check shared by the tail of `Evm::call`
(`src/akula/evm.rs` lines 286-291): on a non-Success status revert to the
snapshot, and zero `gas_left` unless the status is `Revert`. -/
def finishFrame (snapshot : IBS) (p : IBS × Output) : IBS × Output :=
  if p.2.status_code ≠ StatusCode.Success then
    (snapshot,
     if p.2.status_code ≠ StatusCode.Revert then { p.2 with gas_left := 0 } else p.2)
  else p

/-- The tail of `Evm::create` (`src/akula/evm.rs` lines 199-206): on
success record the created address; otherwise revert to the snapshot and
zero `gas_left` unless the status is `Revert`. -/
def finishCreate (snapshot : IBS) (contract_addr : Nat) (p : IBS × Output) : IBS × Output :=
  if p.2.status_code = StatusCode.Success then
    (p.1, { p.2 with create_address := some contract_addr })
  else
    (snapshot,
     if p.2.status_code ≠ StatusCode.Revert then { p.2 with gas_left := 0 } else p.2)

/-- `Evm::call` from `src/akula/evm.rs`.  `exec` is the interpreter run
(`Evm::execute`), `table` the precompile table (`precompiled::CONTRACTS`,
indexed by contract number minus one).  The final status check (source
lines 286-291) reverts to the snapshot on any non-Success status and
zeroes `gas_left` unless the status is `Revert`. -/
def call (exec : Exec) (table : Nat → Contract) (rev : Revision)
    (st : IBS) (message : Message) : IBS × Output :=
  let res0 : Output := ⟨.Success, message.gas, [], none⟩
  if message.kind ≠ CallKind.DelegateCall ∧ get_balance st message.sender < message.value then
    (st, { res0 with status_code := .InsufficientBalance })
  else
    let precompiled := is_precompiled rev message.code_address
    if message.value = 0 ∧ rge rev .Spurious ∧ precompiled = false ∧
        account_exists st message.code_address = false then
      (st, res0)
    else
      let snapshot := st
      let st1 :=
        if message.kind = CallKind.Call then
          if message.is_static then touch st message.recipient
          else add_to_balance (subtract_from_balance st message.sender message.value)
            message.recipient message.value
        else st
      if precompiled then
        finishFrame snapshot (
          let num := message.code_address % 256
          let contract := table (num - 1)
          match Option.bind (contract.gas message.input_data rev)
              (fun g => if g < 2 ^ 63 then some g else none) with
          | none => (st1, { res0 with status_code := .OutOfGas })
          | some gas =>
            if (gas : Int) > message.gas then (st1, { res0 with status_code := .OutOfGas })
            else
              match contract.run message.input_data with
              | some output => (st1, ⟨.Success, message.gas - (gas : Int), output, none⟩)
              | none => (st1, { res0 with status_code := .PrecompileFailure }))
      else
        let code := get_code st1 message.code_address
        if code = [] then (st1, res0)
        else finishFrame snapshot (exec message code st1)

/-- The deployed-code validation block of `Evm::create`
(`src/akula/evm.rs` lines 179-197): on a successful init-code run, check
EIP-3541 (London+, leading `0xEF` byte), EIP-170 (Spurious+, code size
cap), then charge the code-deposit gas and write the code, failing
out-of-gas on Homestead+ when the deposit cannot be paid. -/
def deployValidation (keccakF : List Nat → List Nat) (rev : Revision)
    (contract_addr : Nat) (p : IBS × Output) : IBS × Output :=
  if p.2.status_code = StatusCode.Success then
    let code_len := p.2.output_data.length
    let code_deploy_gas := code_len * G_CODE_DEPOSIT
    if rge rev .London ∧ code_len > 0 ∧ p.2.output_data.head? = some 0xEF then
      (p.1, { p.2 with status_code := .ContractValidationFailure })
    else if rge rev .Spurious ∧ code_len > MAX_CODE_SIZE then
      (p.1, { p.2 with status_code := .OutOfGas })
    else if 0 ≤ p.2.gas_left ∧ (code_deploy_gas : Int) ≤ p.2.gas_left then
      (set_code keccakF p.1 contract_addr p.2.output_data,
       { p.2 with gas_left := p.2.gas_left - (code_deploy_gas : Int) })
    else if rge rev .Homestead then
      (p.1, { p.2 with status_code := .OutOfGas })
    else p
  else p

/-- `Evm::create` from `src/akula/evm.rs`. -/
def create (keccakF : List Nat → List Nat) (exec : Exec) (rev : Revision)
    (st : IBS) (message : CreateMessage) : IBS × Output :=
  let res0 : Output := ⟨.Success, message.gas, [], none⟩
  let value := message.endowment
  if get_balance st message.sender < value then
    (st, { res0 with status_code := .InsufficientBalance })
  else
    let nonce := get_nonce st message.sender
    let st := set_nonce st message.sender (nonce + 1)
    let contract_addr := contractAddress keccakF message.sender nonce message.salt message.initcode
    let st := (access_account st contract_addr).1
    if get_nonce st contract_addr ≠ 0 ∨ get_code_hash st contract_addr ≠ EMPTY_HASH then
      (st, { res0 with status_code := .InvalidInstruction, gas_left := 0 })
    else
      let snapshot := st
      let st := create_contract st contract_addr
      let st := if rge rev .Spurious then set_nonce st contract_addr 1 else st
      let st := add_to_balance (subtract_from_balance st message.sender value) contract_addr value
      let deploy_message : Message :=
        ⟨CallKind.Call, false, message.depth, message.gas, contract_addr, 0,
         message.sender, [], message.endowment⟩
      finishCreate snapshot contract_addr
        (deployValidation keccakF rev contract_addr (exec deploy_message message.initcode st))

/-! ## Top-level entry point (`execute`, `src/akula/evm.rs` lines 45-103) -/

/-- The transaction accessors the entry point uses (`TypedTransaction`
getters all return options; an absent sender defaults to the zero
address).  The `to` field is an address (the source panics on ENS names). -/
structure Txn where
  from_ : Option Nat
  to_ : Option Nat
  data_ : Option (List Nat)
  value_ : Option Nat
  deriving DecidableEq, Repr

/-- The root call message built by `execute` when the transaction has a
`to` field (`src/akula/evm.rs` lines 73-83). -/
def root_call_message (txn : Txn) (gas : Int) (toA : Nat) : Message :=
  let fromA := txn.from_.getD 0
  ⟨CallKind.Call, decide (fromA = 0), 0, gas, toA, toA, fromA,
   txn.data_.getD [], txn.value_.getD 0⟩

/-- The root create message built by `execute` when the transaction has no
`to` field (`src/akula/evm.rs` lines 86-93). -/
def root_create_message (txn : Txn) (gas : Int) : CreateMessage :=
  ⟨0, gas, txn.from_.getD 0, txn.data_.getD [], txn.value_.getD 0, none⟩

/-- The top-level `execute` from `src/akula/evm.rs` (header fields are
only consulted inside the interpreter loop, which is abstracted by
`exec`). -/
def executeTx (keccakF : List Nat → List Nat) (exec : Exec) (table : Nat → Contract)
    (rev : Revision) (st : IBS) (txn : Txn) (gas : Int) : IBS × Output :=
  match txn.to_ with
  | some toA => call exec table rev st (root_call_message txn gas toA)
  | none => create keccakF exec rev st (root_create_message txn gas)

/-! ## Concrete fixtures for witnesses and counterexamples -/

/-- The empty overlay: no accounts, no code, zero storage. -/
def stEmpty : IBS :=
  ⟨fun _ => none, fun _ => [], fun _ _ => 0, fun _ _ => 0, 0, fun _ => false, fun _ => false⟩

/-- A placeholder hash function for witnesses (constant 32-byte output). -/
def kf0 : List Nat → List Nat := fun _ => List.replicate 32 0

/-- A trivial interpreter: consumes all gas, succeeds with empty output. -/
def exec0 : Exec := fun _ _ s => (s, ⟨.Success, 0, [], none⟩)

/-- A trivial precompile table entry. -/
def table0 : Nat → Contract := fun _ => ⟨fun _ _ => some 0, fun _ => some []⟩

/-! ## C1 — signature validity bounds -/

/-- C1: evaluation of `is_valid_signature` at the failing input `r = n`,
`s = 1`: the claim says any signature with `r ≥ n` is rejected, but the
source conjunction `r >= UPPER && s >= UPPER` only rejects when *both*
components are out of range, so this input is accepted. -/
theorem is_valid_signature_accepts_large_r :
    SECP256K1N ≤ SECP256K1N ∧ is_valid_signature SECP256K1N 1 false = true := by
  constructor
  · exact Nat.le_refl _
  · decide

/-! ## C6 — precompile address predicate -/

/-- C6: `is_precompiled(addr, rev)` is true iff `addr ≠ 0`, every byte of
`addr` other than the low byte is zero (`addr / 256 = 0`), and the low
byte is at most the active precompile count for `rev` (4 up to Spurious,
8 up to Petersburg, 9 from Istanbul). -/
theorem is_precompiled_characterization (rev : Revision) (addr : Nat) :
    is_precompiled rev addr = true ↔
      addr ≠ 0 ∧ addr % 256 ≤ spec_precompile_count rev ∧ addr / 256 = 0 := by
  cases rev <;> by_cases h : addr = 0 <;>
    simp [is_precompiled, number_of_precompiles, NUM_OF_FRONTIER_CONTRACTS,
      NUM_OF_BYZANTIUM_CONTRACTS, NUM_OF_ISTANBUL_CONTRACTS,
      spec_precompile_count, h] <;>
    omega

/-! ## C9 — root frame static mode -/

/-- C9: when the transaction has a `to` field, the entry point runs
`call` on the root message, and that root message is static exactly when
the transaction's `from` field is absent or the zero address. -/
theorem executeTx_root_static (keccakF : List Nat → List Nat) (exec : Exec)
    (table : Nat → Contract) (rev : Revision) (st : IBS) (txn : Txn) (gas : Int)
    (toA : Nat) (hto : txn.to_ = some toA) :
    executeTx keccakF exec table rev st txn gas
        = call exec table rev st (root_call_message txn gas toA)
      ∧ ((root_call_message txn gas toA).is_static = true ↔
          (txn.from_ = none ∨ txn.from_ = some 0)) := by
  constructor
  · simp [executeTx, hto]
  · cases hf : txn.from_ with
    | none => simp [root_call_message, hf]
    | some a => simp [root_call_message, hf]

/-- Witness for C9 at a concrete transaction with `to = 5`, `from` absent. -/
theorem executeTx_root_static_witness :
    executeTx kf0 exec0 table0 .London stEmpty ⟨none, some 5, none, none⟩ 77
        = call exec0 table0 .London stEmpty (root_call_message ⟨none, some 5, none, none⟩ 77 5)
      ∧ ((root_call_message ⟨none, some 5, none, none⟩ 77 5).is_static = true ↔
          ((⟨none, some 5, none, none⟩ : Txn).from_ = none ∨
           (⟨none, some 5, none, none⟩ : Txn).from_ = some 0)) :=
  executeTx_root_static kf0 exec0 table0 .London stEmpty ⟨none, some 5, none, none⟩ 77 5 rfl

/-! ## C4 — insufficient balance on call -/

/-- C4: a non-delegate call whose sender balance is below the transfer
value returns `InsufficientBalance` with `gas_left = message.gas` and
leaves the overlay untouched (no snapshot, no transfer, no touch). -/
theorem call_insufficient_balance (exec : Exec) (table : Nat → Contract)
    (rev : Revision) (st : IBS) (message : Message)
    (hk : message.kind ≠ CallKind.DelegateCall)
    (hb : get_balance st message.sender < message.value) :
    call exec table rev st message
      = (st, ⟨.InsufficientBalance, message.gas, [], none⟩) := by
  unfold call
  rw [if_pos ⟨hk, hb⟩]

/-- Witness for C4: sender 1 has balance 0, value 1, gas 100. -/
theorem call_insufficient_balance_witness :
    call exec0 table0 .London stEmpty ⟨.Call, false, 0, 100, 2, 2, 1, [], 1⟩
      = (stEmpty, ⟨.InsufficientBalance, 100, [], none⟩) :=
  call_insufficient_balance exec0 table0 .London stEmpty
    ⟨.Call, false, 0, 100, 2, 2, 1, [], 1⟩ (by decide) (by decide)

/-! ## C8 — zero-value call to a dead non-precompile -/

/-- C8: a zero-value call on Spurious or later whose code address is not a
precompile and does not exist returns `Success` with full gas and performs
no state mutation at all. -/
theorem call_dead_account_noop (exec : Exec) (table : Nat → Contract)
    (rev : Revision) (st : IBS) (message : Message)
    (hv : message.value = 0) (hrev : rge rev .Spurious = true)
    (hp : is_precompiled rev message.code_address = false)
    (he : account_exists st message.code_address = false) :
    call exec table rev st message = (st, ⟨.Success, message.gas, [], none⟩) := by
  unfold call
  rw [if_neg (fun h => Nat.not_lt_zero _ (hv ▸ h.2))]
  rw [if_pos ⟨hv, hrev, hp, he⟩]

/-- Witness for C8: value 0 on Spurious, target address 100 (not a
precompile) absent from the empty overlay. -/
theorem call_dead_account_noop_witness :
    call exec0 table0 .Spurious stEmpty ⟨.Call, false, 0, 55, 100, 100, 1, [], 0⟩
      = (stEmpty, ⟨.Success, 55, [], none⟩) :=
  call_dead_account_noop exec0 table0 .Spurious stEmpty
    ⟨.Call, false, 0, 55, 100, 100, 1, [], 0⟩ rfl (by decide) (by decide) (by decide)

end ForkedEvm

namespace ForkedEvm

/-! ## Small facts about the overlay operations -/

theorem get_original_storage_set_storage (st : IBS) (a k v a2 k2 : Nat) :
    get_original_storage (set_storage st a k v) a2 k2 = get_original_storage st a2 k2 := rfl

theorem get_current_storage_set_storage_same (st : IBS) (a k v : Nat) :
    get_current_storage (set_storage st a k v) a k = v := by
  simp [get_current_storage, set_storage]

theorem refund_set_storage (st : IBS) (a k v : Nat) :
    (set_storage st a k v).refund = st.refund := rfl

theorem refund_add_refund (st : IBS) (x : Nat) :
    (add_refund st x).refund = st.refund + x := rfl

/-! ## C2 — gas zeroing on failure -/

/-- Every result of `finishFrame` whose status is neither `Success` nor
`Revert` has `gas_left = 0`. -/
theorem finishFrame_gas (snapshot : IBS) (p : IBS × Output)
    (hS : (finishFrame snapshot p).2.status_code ≠ .Success)
    (hR : (finishFrame snapshot p).2.status_code ≠ .Revert) :
    (finishFrame snapshot p).2.gas_left = 0 := by
  unfold finishFrame at hS hR ⊢
  by_cases h : p.2.status_code ≠ StatusCode.Success
  · rw [if_pos h] at hS hR ⊢
    by_cases h2 : p.2.status_code ≠ StatusCode.Revert
    · rw [if_pos h2]
    · rw [if_neg h2] at hR
      exact absurd (not_not.mp h2) hR
  · rw [if_neg h] at hS
    exact absurd (not_not.mp h) hS

/-- Every result of `finishCreate` whose status is neither `Success` nor
`Revert` has `gas_left = 0`. -/
theorem finishCreate_gas (snapshot : IBS) (contract_addr : Nat) (p : IBS × Output)
    (hS : (finishCreate snapshot contract_addr p).2.status_code ≠ .Success)
    (hR : (finishCreate snapshot contract_addr p).2.status_code ≠ .Revert) :
    (finishCreate snapshot contract_addr p).2.gas_left = 0 := by
  unfold finishCreate at hS hR ⊢
  by_cases h : p.2.status_code = StatusCode.Success
  · rw [if_pos h] at hS
    exact absurd h hS
  · rw [if_neg h] at hS hR ⊢
    by_cases h2 : p.2.status_code ≠ StatusCode.Revert
    · rw [if_pos h2]
    · rw [if_neg h2] at hR
      exact absurd (not_not.mp h2) hR

/-- C2 (amended): for `call` and for `create`, any terminal status other
than `Success` and `Revert` comes with `gas_left = 0`, except for the
early `InsufficientBalance` return, which keeps `gas_left = message.gas`
(the claim as stated is refuted by that early return, see the
counterexample). -/
theorem gas_zeroing_on_failure (keccakF : List Nat → List Nat) (exec : Exec)
    (table : Nat → Contract) (rev : Revision) (st : IBS)
    (m : Message) (cm : CreateMessage) :
    ((call exec table rev st m).2.status_code ≠ .Success →
     (call exec table rev st m).2.status_code ≠ .Revert →
     ((call exec table rev st m).2.gas_left = 0 ∨
      ((call exec table rev st m).2.status_code = .InsufficientBalance ∧
       (call exec table rev st m).2.gas_left = m.gas))) ∧
    ((create keccakF exec rev st cm).2.status_code ≠ .Success →
     (create keccakF exec rev st cm).2.status_code ≠ .Revert →
     ((create keccakF exec rev st cm).2.gas_left = 0 ∨
      ((create keccakF exec rev st cm).2.status_code = .InsufficientBalance ∧
       (create keccakF exec rev st cm).2.gas_left = cm.gas))) := by
  constructor
  · unfold call
    by_cases h1 : m.kind ≠ CallKind.DelegateCall ∧ get_balance st m.sender < m.value
    · rw [if_pos h1]; intro _ _; right; exact ⟨rfl, rfl⟩
    rw [if_neg h1]
    by_cases h2 : m.value = 0 ∧ rge rev .Spurious = true ∧
        is_precompiled rev m.code_address = false ∧ account_exists st m.code_address = false
    · rw [if_pos h2]; intro hS; exact absurd rfl hS
    rw [if_neg h2]
    simp only []
    repeat' split
    all_goals intro hS hR
    all_goals
      first
        | exact absurd rfl hS
        | exact Or.inl (finishFrame_gas _ _ hS hR)
  · unfold create
    by_cases hb : get_balance st cm.sender < cm.endowment
    · rw [if_pos hb]; intro _ _; right; exact ⟨rfl, rfl⟩
    rw [if_neg hb]
    simp only []
    repeat' split
    all_goals intro hS hR
    all_goals
      first
        | exact absurd rfl hS
        | (left; rfl)
        | exact Or.inl (finishCreate_gas _ _ _ hS hR)

/-- Counterexample to C2 as stated: a call with sender balance 0 and
value 1 terminates with `InsufficientBalance` (neither `Success` nor
`Revert`) yet keeps `gas_left = 100`, not 0. -/
theorem gas_zeroing_claim_cex :
    (call exec0 table0 .London stEmpty ⟨.Call, false, 0, 100, 2, 2, 1, [], 1⟩).2.status_code
        = .InsufficientBalance ∧
    (call exec0 table0 .London stEmpty ⟨.Call, false, 0, 100, 2, 2, 1, [], 1⟩).2.gas_left ≠ 0 := by
  constructor
  · decide
  · decide

/-- Witness for the amended C2 at the insufficient-balance input. -/
theorem gas_zeroing_on_failure_witness :
    (call exec0 table0 .London stEmpty ⟨.Call, false, 0, 100, 2, 2, 1, [], 1⟩).2.gas_left = 0 ∨
    ((call exec0 table0 .London stEmpty ⟨.Call, false, 0, 100, 2, 2, 1, [], 1⟩).2.status_code
        = .InsufficientBalance ∧
     (call exec0 table0 .London stEmpty ⟨.Call, false, 0, 100, 2, 2, 1, [], 1⟩).2.gas_left
        = (⟨.Call, false, 0, 100, 2, 2, 1, [], 1⟩ : Message).gas) :=
  (gas_zeroing_on_failure kf0 exec0 table0 .London stEmpty
    ⟨.Call, false, 0, 100, 2, 2, 1, [], 1⟩ ⟨0, 0, 0, [], 0, none⟩).1 (by decide) (by decide)

/-! ## C3 — EIP-1283 storage transition and refunds -/

/-- A fixture overlay whose slot `(1, 1)` has original value 0 and current
value 5 (mid-transaction state after an earlier write), refund counter 0. -/
def stSlot : IBS :=
  ⟨fun _ => none, fun _ => [],
   fun x y => if x = 1 ∧ y = 1 then 5 else 0,
   fun _ _ => 0, 0, fun _ => false, fun _ => false⟩

/-- Counterexample to C3 as stated: at Istanbul, writing 0 into a slot
with original 0 and current 5 returns `ModifiedAgain` but credits
`G_SSET - sload_cost = 19200` to the refund counter, not
`sstore_clears_refund` (which is `R_SCLEAR = 15000` at Istanbul). -/
theorem set_storage_refund_cex :
    (set_storage_interrupt .Istanbul stSlot 1 1 0).2 = .ModifiedAgain ∧
    (set_storage_interrupt .Istanbul stSlot 1 1 0).1.refund = G_SSET - G_SLOAD_ISTANBUL ∧
    (set_storage_interrupt .Istanbul stSlot 1 1 0).1.refund ≠ sstoreClearsRefund .Istanbul := by
  refine ⟨?_, ?_, ?_⟩
  · decide
  · decide
  · decide

/-- C3 (amended): under EIP-1283 revisions, writing `X ≠ 0` into a slot
with original 0 and current 0 returns `Added`; a subsequent write of 0 to
the same slot returns `ModifiedAgain` and credits `G_SSET - sload_cost`
(EIP-2200's reset-to-original-zero refund) to the refund counter — not
`sstore_clears_refund`, which applies only when the original is nonzero. -/
theorem set_storage_add_then_clear (rev : Revision) (st : IBS) (a k x : Nat)
    (h1283 : rge rev .Istanbul = true ∨ rev = .Constantinople)
    (horig : get_original_storage st a k = 0)
    (hcur : get_current_storage st a k = 0)
    (hx : x ≠ 0) :
    (set_storage_interrupt rev st a k x).2 = .Added ∧
    (set_storage_interrupt rev (set_storage_interrupt rev st a k x).1 a k 0).2
        = .ModifiedAgain ∧
    (set_storage_interrupt rev (set_storage_interrupt rev st a k x).1 a k 0).1.refund
        = st.refund + (G_SSET - sloadCost rev) := by
  have hne1 : get_current_storage st a k ≠ x := by rw [hcur]; exact fun h => hx h.symm
  have step1 : set_storage_interrupt rev st a k x = (set_storage st a k x, .Added) := by
    unfold set_storage_interrupt
    rw [if_neg hne1, if_neg (not_not_intro h1283)]
    rw [if_pos (show get_original_storage (set_storage st a k x) a k
          = get_current_storage st a k from
        (get_original_storage_set_storage st a k x a k).trans (horig.trans hcur.symm))]
    rw [if_pos ((get_original_storage_set_storage st a k x a k).trans horig)]
  rw [step1]
  refine ⟨rfl, ?_⟩
  have hcur2 : get_current_storage (set_storage st a k x) a k ≠ 0 := by
    rw [get_current_storage_set_storage_same]; exact hx
  have horig2 : get_original_storage (set_storage (set_storage st a k x) a k 0) a k = 0 := by
    rw [get_original_storage_set_storage, get_original_storage_set_storage]
    exact horig
  have hneq : get_original_storage (set_storage (set_storage st a k x) a k 0) a k
      ≠ get_current_storage (set_storage st a k x) a k := by
    rw [horig2, get_current_storage_set_storage_same]
    exact fun h => hx h.symm
  unfold set_storage_interrupt
  dsimp only
  rw [if_neg hcur2, if_neg (not_not_intro h1283), if_neg hneq,
    if_neg (not_not_intro horig2), if_pos horig2, if_pos horig2]
  exact ⟨rfl, rfl⟩

/-- Witness for the amended C3 at Istanbul with slot `(1,1)` and `x = 5`:
first write `Added`, second write `ModifiedAgain` with refund
`20000 - 800 = 19200`. -/
theorem set_storage_add_then_clear_witness :
    (set_storage_interrupt .Istanbul stEmpty 1 1 5).2 = .Added ∧
    (set_storage_interrupt .Istanbul (set_storage_interrupt .Istanbul stEmpty 1 1 5).1 1 1 0).2
        = .ModifiedAgain ∧
    (set_storage_interrupt .Istanbul
        (set_storage_interrupt .Istanbul stEmpty 1 1 5).1 1 1 0).1.refund
      = stEmpty.refund + (G_SSET - sloadCost .Istanbul) :=
  set_storage_add_then_clear .Istanbul stEmpty 1 1 5 (Or.inl rfl) rfl rfl (by decide)

/-! ## C5 — deployed-code validation in create -/

/-- C5: when init-code execution succeeds, the returned code is validated:
on London+ a nonempty output starting with `0xEF` fails the create with
`ContractValidationFailure`; otherwise on Spurious+ an output longer than
`MAX_CODE_SIZE = 24576` fails it with `OutOfGas`.  In both cases the
overlay is reverted to the snapshot taken before `create_contract` (the
state `st1` below), `gas_left` is zeroed, and no code is written to the
target (its code in `st1` is its code at entry). -/
theorem create_deployed_code_validation
    (keccakF : List Nat → List Nat) (exec : Exec) (rev : Revision) (st : IBS)
    (message : CreateMessage) (k addr : Nat) (st1 stx st2 : IBS) (out : Output)
    (hbal : ¬ get_balance st message.sender < message.endowment)
    (hk : k = get_nonce st message.sender)
    (haddr : addr = contractAddress keccakF message.sender k message.salt message.initcode)
    (hst1 : st1 = (access_account (set_nonce st message.sender (k + 1)) addr).1)
    (hfresh : ¬(get_nonce st1 addr ≠ 0 ∨ get_code_hash st1 addr ≠ EMPTY_HASH))
    (hstx : stx = add_to_balance (subtract_from_balance
        (if rge rev .Spurious then set_nonce (create_contract st1 addr) addr 1
         else create_contract st1 addr) message.sender message.endowment) addr message.endowment)
    (hexec : exec ⟨CallKind.Call, false, message.depth, message.gas, addr, 0,
        message.sender, [], message.endowment⟩ message.initcode stx = (st2, out))
    (hsucc : out.status_code = .Success) :
    (rge rev .London = true → 0 < out.output_data.length →
     out.output_data.head? = some 0xEF →
     create keccakF exec rev st message
       = (st1, { out with status_code := .ContractValidationFailure, gas_left := 0 })) ∧
    (¬(rge rev .London = true ∧ 0 < out.output_data.length ∧
        out.output_data.head? = some 0xEF) →
     rge rev .Spurious = true → MAX_CODE_SIZE < out.output_data.length →
     create keccakF exec rev st message
       = (st1, { out with status_code := .OutOfGas, gas_left := 0 })) ∧
    get_code st1 addr = get_code st addr := by
  subst hk haddr hst1 hstx
  have hcreate : create keccakF exec rev st message
      = finishCreate ((access_account (set_nonce st message.sender
            (get_nonce st message.sender + 1))
          (contractAddress keccakF message.sender (get_nonce st message.sender)
            message.salt message.initcode)).1)
        (contractAddress keccakF message.sender (get_nonce st message.sender)
            message.salt message.initcode)
        (deployValidation keccakF rev
          (contractAddress keccakF message.sender (get_nonce st message.sender)
            message.salt message.initcode) (st2, out)) := by
    unfold create
    rw [if_neg hbal]
    dsimp only
    rw [if_neg hfresh, hexec]
  refine ⟨?_, ?_, rfl⟩
  · intro hL hlen hEF
    rw [hcreate]
    unfold deployValidation
    rw [if_pos hsucc]
    dsimp only
    rw [if_pos ⟨hL, hlen, hEF⟩]
    unfold finishCreate
    dsimp only
    rw [if_neg (by simp), if_pos (by simp)]
  · intro hnEF hSp hbig
    rw [hcreate]
    unfold deployValidation
    rw [if_pos hsucc]
    dsimp only
    rw [if_neg hnEF, if_pos ⟨hSp, hbig⟩]
    unfold finishCreate
    dsimp only
    rw [if_neg (by simp), if_pos (by simp)]

/-- An interpreter that succeeds returning the single byte `0xEF` and 5
gas left (fixture for the C5 witness). -/
def execEF : Exec := fun _ _ s => (s, ⟨.Success, 5, [0xEF], none⟩)

/-- The snapshot state of the C5 witness scenario: sender 1's nonce bumped
to 1 and the target address 0 marked warm. -/
def st1w : IBS := (access_account (set_nonce stEmpty 1 1) 0).1

/-- The pre-exec state of the C5 witness scenario. -/
def stxw : IBS := add_to_balance (subtract_from_balance
    (if rge .London .Spurious then set_nonce (create_contract st1w 0) 0 1
     else create_contract st1w 0) 1 0) 0 0

/-- Witness for C5: on London, init code returning `[0xEF]` makes the
create fail with `ContractValidationFailure`, zero gas, state rolled back
to the snapshot. -/
theorem create_deployed_code_validation_witness :
    create kf0 execEF .London stEmpty ⟨0, 1000, 1, [], 0, none⟩
      = (st1w, ⟨.ContractValidationFailure, 0, [0xEF], none⟩) :=
  (create_deployed_code_validation kf0 execEF .London stEmpty ⟨0, 1000, 1, [], 0, none⟩
      0 0 st1w stxw stxw ⟨.Success, 5, [0xEF], none⟩
      (by decide) rfl (by decide) rfl (by decide) rfl rfl rfl).1 rfl (by decide) rfl

/-! ## C10 — nonce handling and address derivation in create -/

theorem get_nonce_updAcc_preserving (st : IBS) (a x : Nat) (f : Account → Account)
    (hf : ∀ acc, (f acc).nonce = acc.nonce) :
    get_nonce (st.updAcc a f) x = get_nonce st x := by
  unfold get_nonce IBS.updAcc
  by_cases h : x = a
  · subst h
    simp only [if_pos rfl]
    cases st.accounts x <;> simp [hf, Option.getD, Account.default]
  · simp only [if_neg h]

theorem get_nonce_set_code (keccakF : List Nat → List Nat) (st : IBS) (a : Nat)
    (c : List Nat) (x : Nat) :
    get_nonce (set_code keccakF st a c) x = get_nonce st x := by
  have h : get_nonce (set_code keccakF st a c) x
      = get_nonce (st.updAcc a
          (fun acc => { acc with codeHash := keccakDigest keccakF c })) x := rfl
  rw [h]
  exact get_nonce_updAcc_preserving _ _ _ _ (fun _ => rfl)

theorem get_nonce_add_to_balance (st : IBS) (a v x : Nat) :
    get_nonce (add_to_balance st a v) x = get_nonce st x :=
  get_nonce_updAcc_preserving _ _ _ _ (fun _ => rfl)

theorem get_nonce_subtract_from_balance (st : IBS) (a v x : Nat) :
    get_nonce (subtract_from_balance st a v) x = get_nonce st x :=
  get_nonce_updAcc_preserving _ _ _ _ (fun _ => rfl)

theorem get_nonce_set_nonce_same (st : IBS) (a n : Nat) :
    get_nonce (set_nonce st a n) a = n := by
  unfold get_nonce set_nonce IBS.updAcc
  simp

theorem get_nonce_set_nonce_ne (st : IBS) (a n x : Nat) (h : x ≠ a) :
    get_nonce (set_nonce st a n) x = get_nonce st x := by
  unfold get_nonce set_nonce IBS.updAcc
  simp [if_neg h]

theorem get_nonce_create_contract_ne (st : IBS) (a x : Nat) (h : x ≠ a) :
    get_nonce (create_contract st a) x = get_nonce st x := by
  unfold get_nonce create_contract
  simp [if_neg h]

theorem get_nonce_access_account (st : IBS) (a x : Nat) :
    get_nonce (access_account st a).1 x = get_nonce st x := rfl

/-- `deployValidation` on a successful run with empty output: no
validation failure can trigger and the (zero-cost) code deposit happens. -/
theorem deployValidation_success_empty (keccakF : List Nat → List Nat)
    (rev : Revision) (A : Nat) (q : IBS × Output)
    (hsucc : q.2.status_code = .Success) (hout : q.2.output_data = [])
    (hgas : 0 ≤ q.2.gas_left) :
    deployValidation keccakF rev A q
      = (set_code keccakF q.1 A q.2.output_data,
         { q.2 with gas_left :=
            q.2.gas_left - ((q.2.output_data.length * G_CODE_DEPOSIT : Nat) : Int) }) := by
  unfold deployValidation
  rw [if_pos hsucc]
  dsimp only
  rw [if_neg (by rw [hout]; rintro ⟨-, h, -⟩; simp at h),
    if_neg (by rw [hout]; rintro ⟨-, h⟩; revert h; decide),
    if_pos ⟨hgas, by rw [hout]; simpa using hgas⟩]

/-- `finishCreate` on a successful result records the created address. -/
theorem finishCreate_success (snapshot : IBS) (A : Nat) (q : IBS × Output)
    (hsucc : q.2.status_code = .Success) :
    finishCreate snapshot A q = (q.1, { q.2 with create_address := some A }) := by
  unfold finishCreate
  rw [if_pos hsucc]

/-- C10: `create` reads the sender nonce `k`, stores `k + 1`, and derives
the salt-less contract address from the *pre-increment* value `k`; on the
success path the returned `create_address` is `create_address(sender, k)`
and the final overlay records sender nonce `k + 1`.  A salted (CREATE2)
derivation ignores the nonce entirely: it depends only on the sender, the
salt and the keccak hash of the init code. -/
theorem create_preincrement_nonce_address
    (keccakF : List Nat → List Nat) (exec : Exec) (rev : Revision) (st : IBS)
    (message : CreateMessage) (k addr : Nat) (st1 : IBS) (out : Output)
    (hsalt : message.salt = none)
    (hk : k = get_nonce st message.sender)
    (haddr : addr = contractAddress keccakF message.sender k message.salt message.initcode)
    (hbal : ¬ get_balance st message.sender < message.endowment)
    (hst1 : st1 = (access_account (set_nonce st message.sender (k + 1)) addr).1)
    (hfresh : ¬(get_nonce st1 addr ≠ 0 ∨ get_code_hash st1 addr ≠ EMPTY_HASH))
    (hne : addr ≠ message.sender)
    (hexec : ∀ m c s2, exec m c s2 = (s2, out))
    (hsucc : out.status_code = .Success)
    (hout : out.output_data = [])
    (hgas : 0 ≤ out.gas_left) :
    (create keccakF exec rev st message).2.create_address
        = some (create_address keccakF message.sender k) ∧
    get_nonce (create keccakF exec rev st message).1 message.sender = k + 1 ∧
    (∀ saltv n1 n2, contractAddress keccakF message.sender n1 (some saltv) message.initcode
        = contractAddress keccakF message.sender n2 (some saltv) message.initcode) ∧
    (∀ saltv n1, contractAddress keccakF message.sender n1 (some saltv) message.initcode
        = create2_address keccakF message.sender saltv (keccakDigest keccakF message.initcode)) := by
  have hA : addr = create_address keccakF message.sender k := by
    rw [haddr, hsalt]
    rfl
  subst hk haddr hst1
  have hcreate : create keccakF exec rev st message
      = finishCreate
          ((access_account (set_nonce st message.sender (get_nonce st message.sender + 1))
            (contractAddress keccakF message.sender (get_nonce st message.sender)
              message.salt message.initcode)).1)
          (contractAddress keccakF message.sender (get_nonce st message.sender)
              message.salt message.initcode)
          (deployValidation keccakF rev
            (contractAddress keccakF message.sender (get_nonce st message.sender)
              message.salt message.initcode)
            (add_to_balance (subtract_from_balance
              (if rge rev .Spurious then
                set_nonce (create_contract ((access_account (set_nonce st message.sender
                    (get_nonce st message.sender + 1))
                  (contractAddress keccakF message.sender (get_nonce st message.sender)
                    message.salt message.initcode)).1)
                  (contractAddress keccakF message.sender (get_nonce st message.sender)
                    message.salt message.initcode))
                  (contractAddress keccakF message.sender (get_nonce st message.sender)
                    message.salt message.initcode) 1
               else
                create_contract ((access_account (set_nonce st message.sender
                    (get_nonce st message.sender + 1))
                  (contractAddress keccakF message.sender (get_nonce st message.sender)
                    message.salt message.initcode)).1)
                  (contractAddress keccakF message.sender (get_nonce st message.sender)
                    message.salt message.initcode))
              message.sender message.endowment)
              (contractAddress keccakF message.sender (get_nonce st message.sender)
                message.salt message.initcode) message.endowment, out)) := by
    unfold create
    rw [if_neg hbal]
    dsimp only
    rw [if_neg hfresh, hexec]
  rw [hcreate, deployValidation_success_empty _ _ _ _ hsucc hout hgas,
    finishCreate_success _ _ _ hsucc]
  dsimp only
  refine ⟨by rw [hA], ?_, fun _ _ _ => rfl, fun _ _ => rfl⟩
  rw [get_nonce_set_code, get_nonce_add_to_balance, get_nonce_subtract_from_balance]
  by_cases hs : rge rev .Spurious = true
  · rw [if_pos hs, get_nonce_set_nonce_ne _ _ _ _ (Ne.symm hne),
      get_nonce_create_contract_ne _ _ _ (Ne.symm hne), get_nonce_access_account,
      get_nonce_set_nonce_same]
  · rw [if_neg hs, get_nonce_create_contract_ne _ _ _ (Ne.symm hne),
      get_nonce_access_account, get_nonce_set_nonce_same]

/-- Witness for C10: sender 1 with nonce 0 creating with salt-less
message; the created address is `create_address(1, 0)` and the final
overlay has sender nonce 1. -/
theorem create_preincrement_nonce_address_witness :
    (create kf0 exec0 .London stEmpty ⟨0, 50, 1, [], 0, none⟩).2.create_address
        = some (create_address kf0 1 0) ∧
    get_nonce (create kf0 exec0 .London stEmpty ⟨0, 50, 1, [], 0, none⟩).1 1 = 0 + 1 ∧
    (∀ saltv n1 n2, contractAddress kf0 1 n1 (some saltv) []
        = contractAddress kf0 1 n2 (some saltv) []) ∧
    (∀ saltv n1, contractAddress kf0 1 n1 (some saltv) []
        = create2_address kf0 1 saltv (keccakDigest kf0 [])) :=
  create_preincrement_nonce_address kf0 exec0 .London stEmpty ⟨0, 50, 1, [], 0, none⟩
    0 0 st1w ⟨.Success, 0, [], none⟩ rfl rfl (by decide) (by decide) rfl (by decide)
    (by decide) (fun _ _ _ => rfl) rfl rfl (by decide)

/-! ## C7 — modexp precompile -/

theorem beBytes_foldl_eq_zero (l : List Nat) :
    ∀ acc, l.foldl (fun acc b => acc * 256 + b) acc = 0 ↔
      (acc = 0 ∧ ∀ b ∈ l, b = 0) := by
  induction l with
  | nil => intro acc; simp
  | cons x t ih =>
    intro acc
    simp only [List.foldl_cons, List.mem_cons]
    rw [ih]
    constructor
    · rintro ⟨h1, h2⟩
      have hax : acc = 0 ∧ x = 0 := by omega
      exact ⟨hax.1, fun b hb => hb.elim (fun e => e ▸ hax.2) (h2 b)⟩
    · rintro ⟨h1, h2⟩
      subst h1
      exact ⟨by have := h2 x (Or.inl rfl); omega, fun b hb => h2 b (Or.inr hb)⟩

theorem beBytesToNat_eq_zero (l : List Nat) :
    beBytesToNat l = 0 ↔ ∀ b ∈ l, b = 0 := by
  unfold beBytesToNat
  rw [beBytes_foldl_eq_zero]
  simp

/-- If the 32-byte modulus-length field (bytes 64..96) is zero, so is the
8-byte field at offset 88 that `expmod_run` reads. -/
theorem expmod_modlen_field_zero (input : List Nat)
    (hm : (expmodHeader input).2.2 = 0) : (expmodRunHeader input).2.2 = 0 := by
  unfold expmodHeader at hm
  unfold expmodRunHeader
  dsimp only at hm ⊢
  rw [beBytesToNat_eq_zero] at hm ⊢
  intro b hb
  apply hm
  have h1 : (right_pad input 96).drop 88 = ((right_pad input 96).drop 64).drop 24 := by
    rw [List.drop_drop]
  have h2 : (((right_pad input 96).drop 64).drop 24).take 8
      = (((right_pad input 96).drop 64).take 32).drop 24 := by
    rw [List.drop_take]
  rw [h1, h2] at hb
  exact List.mem_of_mem_drop hb

/-- C7: (a) with zero base-length and modulus-length header fields, the
gas charge is exactly the minimum gas (`0` before Berlin, `200` from
Berlin) and `expmod_run` produces empty output; (b) with a nonzero
modulus length but a zero modulus value, `expmod_run` produces an
all-zero output of exactly `mod_len` bytes; (c) from Berlin on, whenever
`expmod_gas` prices an input at all, the price is at least 200. -/
theorem expmod_degenerate_and_floor :
    (∀ rev input, (expmodHeader input).1 = 0 → (expmodHeader input).2.2 = 0 →
      expmod_gas input rev = some (expmodMinGas rev) ∧ expmod_run input = some []) ∧
    (∀ input, (expmodRunHeader input).2.2 ≠ 0 → expmodModulus input = 0 →
      expmod_run input = some (List.replicate (expmodRunHeader input).2.2 0)) ∧
    (∀ rev input g, rge rev .Berlin = true → expmod_gas input rev = some g →
      200 ≤ g) := by
  refine ⟨?_, ?_, ?_⟩
  · intro rev input hb hm
    constructor
    · unfold expmod_gas
      rw [if_pos ⟨hb, hm⟩]
    · have hmr := expmod_modlen_field_zero input hm
      unfold expmod_run
      rw [if_pos hmr]
  · intro input hml hmod
    unfold expmod_run
    rw [if_neg hml]
    dsimp only
    unfold expmodModulus at hmod
    dsimp only at hmod
    rw [if_pos hmod]
  · intro rev input g hrev h
    have hmin : expmodMinGas rev = 200 := by simp [expmodMinGas, hrev]
    unfold expmod_gas at h
    by_cases h1 : (expmodHeader input).1 = 0 ∧ (expmodHeader input).2.2 = 0
    · rw [if_pos h1] at h
      injection h with h
      omega
    rw [if_neg h1] at h
    by_cases h2 : (expmodHeader input).1 ≥ 2 ^ 64
    · rw [if_pos h2] at h; exact Option.noConfusion h
    rw [if_neg h2] at h
    by_cases h3 : (expmodHeader input).2.1 ≥ 2 ^ 64
    · rw [if_pos h3] at h; exact Option.noConfusion h
    rw [if_neg h3] at h
    by_cases h4 : (expmodHeader input).2.2 ≥ 2 ^ 64
    · rw [if_pos h4] at h; exact Option.noConfusion h
    rw [if_neg h4] at h
    dsimp only at h
    rw [if_pos hrev] at h
    repeat' split at h
    all_goals
      first
        | exact Option.noConfusion h
        | (injection h with h; rw [hmin] at h; exact h ▸ Nat.le_max_left _ _)

/-- Witness for C7: part (a) at the empty input (all header fields zero)
on Berlin and on Byzantium; part (b) at the input whose modulus length is
1 with an absent (hence zero) modulus; part (c) at the empty input on
Berlin. -/
theorem expmod_degenerate_and_floor_witness :
    (expmod_gas [] .Berlin = some 200 ∧ expmod_run [] = some []) ∧
    (expmod_gas [] .Byzantium = some 0) ∧
    expmod_run (List.replicate 95 0 ++ [1]) = some [0] ∧
    (200 : Nat) ≤ 200 := by
  refine ⟨?_, ?_, ?_, ?_⟩
  · have h := (expmod_degenerate_and_floor.1 .Berlin [] (by decide) (by decide))
    exact ⟨h.1, h.2⟩
  · exact (expmod_degenerate_and_floor.1 .Byzantium [] (by decide) (by decide)).1
  · have h := expmod_degenerate_and_floor.2.1 (List.replicate 95 0 ++ [1])
      (by decide) (by decide)
    exact h
  · exact expmod_degenerate_and_floor.2.2 .Berlin [] 200 (by decide)
      (expmod_degenerate_and_floor.1 .Berlin [] (by decide) (by decide)).1

end ForkedEvm
